import Mathlib

/-!
Verification development for the ingestion and throttling control plane of the
repository.  The definitions below are shallow embeddings of:

* `app/modules/recording/service.py` — the RingCentral recording fetch with its
  process-wide throttle clock (`_rc_next_allowed_at`), token cache, pre-request
  gate, transient backoff and the SDK / raw-HTTP attempt loops;
* `app/modules/servicebus/models.py`, `worker.py`, `listener.py` — queue message
  parsing, the audio-processing handler and the per-message complete/abandon
  disposition;
* `app/services/azure/service_bus.py` — the `ServiceBusManager` admission
  counter (`active_tasks`);
* the lock-renewal background task (§4.2 of the design document), which has no
  implementation under the source tree and is modelled from the spec.

Machine floats (Python `time.time()`, backoff seconds) are modelled as exact
rationals `ℚ`; HTTP requests are modelled by an environment (`FetchEnv`) that
scripts the response of each outbound request, the jitter drawn for each
backoff computation, and the result of each credential acquisition.  The
process clock advances exactly by the amount slept.
-/

/-- An HTTP response as observed by `app/modules/recording/service.py`:
the status code and the rate-limit-related headers the code reads.
A header that is absent, or whose value fails to parse (the source falls
through on `ValueError`), is `none`. -/
structure Response where
  status : Nat
  retryAfter : Option ℚ
  rlRemaining : Option Int
  rlWindow : Option ℚ
deriving DecidableEq

/-- Outcome of the body of the `try:` block inside `_maybe_wait_before_request`
(service.py lines 65-77): either it raises `RingCentralRateLimitActive delay`
(strict mode) or it returns after sleeping `slept` seconds. -/
inductive GateOutcome where
  | raised (retryAfter : ℚ)
  | proceed (slept : ℚ)
deriving DecidableEq

/-- The body of the `try:` block of `_maybe_wait_before_request`:
if `now < _rc_next_allowed_at` and the remaining delay is positive, strict mode
raises `RingCentralRateLimitActive(delay)` and lenient mode sleeps the delay. -/
def gate_try_body (strict : Bool) (nextAllowed now : ℚ) : GateOutcome :=
  if now < nextAllowed then
    let delay := max 0 (nextAllowed - now)
    if 0 < delay then
      if strict then GateOutcome.raised delay else GateOutcome.proceed delay
    else GateOutcome.proceed 0
  else GateOutcome.proceed 0

/-- `_maybe_wait_before_request` as actually written: the whole body sits
inside `try: ... except Exception: return`, and `RingCentralRateLimitActive`
derives from `Exception`, so a strict-mode raise is caught by the function's
own handler and the function returns normally without sleeping.  The returned
value is the number of seconds actually slept before the request proceeds. -/
def maybe_wait_before_request (strict : Bool) (nextAllowed now : ℚ) : ℚ :=
  match gate_try_body strict nextAllowed now with
  | GateOutcome.raised _ => 0
  | GateOutcome.proceed d => d

/-- `_retry_after_seconds(resp, attempt)`: honor a parseable `Retry-After`
header verbatim; else 30s for a 429; else `min(2^(attempt-1), 16)` plus the
jitter drawn from `random.uniform(0, 0.5)`. -/
def retry_after_seconds (r : Response) (attempt : Nat) (jitter : ℚ) : ℚ :=
  match r.retryAfter with
  | some v => v
  | none =>
    if r.status = 429 then 30
    else min ((2 : ℚ) ^ (attempt - 1)) 16 + jitter

/-- The transient statuses retried by both attempt loops:
`(429, 500, 502, 503, 504, 408)`. -/
def isTransientStatus (s : Nat) : Bool :=
  s == 429 || s == 500 || s == 502 || s == 503 || s == 504 || s == 408

/-- The shared-throttle update performed on every computed backoff in both
attempt loops: `_rc_next_allowed_at = max(_rc_next_allowed_at, time.time() + wait_s)`. -/
def transient_backoff_update (cur now b : ℚ) : ℚ :=
  max cur (now + b)

/-- The direct-fetch token cache:
`_rc_cached_direct_token` and `_rc_cached_direct_token_expiry`. -/
structure TokenCache where
  token : Option String
  expiry : Option ℚ
deriving DecidableEq

/-- The cache-hit test of `_get_or_refresh_direct_token`:
`if _rc_cached_direct_token:` (Python truthiness, so an empty string is a
miss) and then `_rc_cached_direct_token_expiry is None or
_rc_cached_direct_token_expiry > now + 30`. -/
def cacheUsable (cache : TokenCache) (now : ℚ) : Bool :=
  match cache.token with
  | none => false
  | some t =>
    (t != "") &&
      (match cache.expiry with
       | none => true
       | some e => decide (now + 30 < e))

/-- `_get_or_refresh_direct_token(force_refresh)` (service.py lines 155-182),
sequentialised: the double-checked locking re-reads `time.time()` under the
lock, which in this single-threaded model is the same `now`, so the inner
re-check repeats the outer one.  `acq` scripts the credential exchange: the
fresh token and the provider-reported `expires_in` TTL (`none` models both a
missing TTL and the legacy-helper fallback, which returns no TTL).  The new
expiry is `now + expires_in - 60` guarded by Python truthiness of
`expires_in` (so a zero TTL records no expiry).  Returns the token handed to
the caller, the new cache, and whether a credential exchange was performed. -/
def get_or_refresh_direct_token (force : Bool) (cache : TokenCache) (now : ℚ)
    (acq : String × Option ℚ) : Option String × TokenCache × Bool :=
  if ¬force ∧ cacheUsable cache now then (cache.token, cache, false)
  else if ¬force ∧ cacheUsable cache now then (cache.token, cache, false)
  else
    let expiry : Option ℚ :=
      match acq.2 with
      | some v => if v = 0 then none else some (now + v - 60)
      | none => none
    (some acq.1, ⟨some acq.1, expiry⟩, true)

/-- The mutable state threaded through one logical fetch: the process clock,
the shared throttle clock `_rc_next_allowed_at`, the direct-token cache, and
observation counters (content-URL requests performed, credential exchanges
performed, SDK re-logins performed). -/
structure FetchSt where
  now : ℚ
  nextAllowed : ℚ
  cache : TokenCache
  reqs : Nat
  acqs : Nat
  relogins : Nat
deriving DecidableEq

/-- Environment scripting one logical fetch: the strict-rate-limit toggle,
whether `platform.login` succeeds, the response of the k-th content request,
the jitter drawn for the k-th request's backoff, and the result of the j-th
credential acquisition.  `platform.get(content_url)` and
`requests.get(content_url, ...)` are both modelled as one content request
answered by `script`; this follows the control flow the attempt loops in
`recording/service.py` implement for responses (note that the `get_platform`
helper in `app/ringcentral/client.py` nowadays returns a headers dict rather
than an SDK platform object, so at runtime the SDK path would fail before
issuing a request — a wiring inconsistency outside these loops). -/
structure FetchEnv where
  strict : Bool
  reloginOk : Bool
  script : Nat → Response
  jitter : Nat → ℚ
  acquire : Nat → String × Option ℚ

/-- Effect of the pre-request gate on the state: the clock advances by the
time slept (zero in strict mode, where the raise is swallowed). -/
def applyGate (strict : Bool) (st : FetchSt) : FetchSt :=
  { st with now := st.now + maybe_wait_before_request strict st.nextAllowed st.now }

/-- One content-URL request, shared by `_platform_get_once` and
`_direct_get_with_token`: run the pre-request gate, then receive the scripted
response for the current request index. -/
def httpGet (env : FetchEnv) (st : FetchSt) : Response × FetchSt :=
  let st := applyGate env.strict st
  (env.script st.reqs, { st with reqs := st.reqs + 1 })

/-- Result of one attempt loop (`_try_platform_with_backoff` /
`_try_direct_with_backoff`): either the returned `Optional[requests.Response]`,
or a `RingCentralRateLimitActive` raised out of the loop (strict mode,
transient status). -/
inductive PathRes where
  | resp (r : Option Response) (st : FetchSt)
  | limit (retryAfter : ℚ) (st : FetchSt)

/-- Final state carried by a `PathRes`. -/
def PathRes.st : PathRes → FetchSt
  | PathRes.resp _ st => st
  | PathRes.limit _ st => st

/-- The loop body of `_try_platform_with_backoff` (service.py lines 184-222),
with `fuel` remaining iterations of `for attempt in range(1, max_attempts+1)`.
A 401 before any re-login triggers `platform.login` (consuming the attempt) or
breaks the loop if the re-login fails; a transient status computes a backoff,
performs the shared-throttle update and raises in strict mode or sleeps and
retries in lenient mode; any other status returns (a `raise_for_status`
failure breaks with `last_resp`, which is the same response just received). -/
def try_platform_go (env : FetchEnv) :
    Nat → Nat → Bool → Option Response → FetchSt → PathRes
  | 0, _, _, last, st => PathRes.resp last st
  | fuel + 1, attempt, reloginDone, _, st =>
    let p := httpGet env st
    let r := p.1
    let st := p.2
    if r.status = 401 ∧ ¬reloginDone then
      if env.reloginOk then
        try_platform_go env fuel (attempt + 1) true (some r)
          { st with relogins := st.relogins + 1 }
      else PathRes.resp (some r) st
    else if isTransientStatus r.status then
      let w := retry_after_seconds r attempt (env.jitter (st.reqs - 1))
      let st := { st with nextAllowed := transient_backoff_update st.nextAllowed st.now w }
      if env.strict then PathRes.limit w st
      else try_platform_go env fuel (attempt + 1) reloginDone (some r)
        { st with now := st.now + w }
    else PathRes.resp (some r) st

/-- `_try_platform_with_backoff(max_attempts)`. -/
def try_platform_with_backoff (env : FetchEnv) (st : FetchSt) (maxAttempts : Nat) : PathRes :=
  try_platform_go env maxAttempts 1 false none st

/-- The forced token refresh performed by the 401 branch of
`_try_direct_with_backoff`: `token = _get_or_refresh_direct_token(force_refresh=True)`,
returning the token obtained and the state with the updated cache and
acquisition count. -/
def directRefreshStep (env : FetchEnv) (st : FetchSt) : Option String × FetchSt :=
  let res := get_or_refresh_direct_token true st.cache st.now (env.acquire st.acqs)
  (res.1, { st with cache := res.2.1,
                    acqs := st.acqs + (if res.2.2 then 1 else 0) })

/-- The initial (cache-first) token lookup of `_try_direct_with_backoff`:
`token = _get_or_refresh_direct_token(force_refresh=False)`. -/
def directInitialTokenStep (env : FetchEnv) (st : FetchSt) : Option String × FetchSt :=
  let res := get_or_refresh_direct_token false st.cache st.now (env.acquire st.acqs)
  (res.1, { st with cache := res.2.1,
                    acqs := st.acqs + (if res.2.2 then 1 else 0) })

/-- The loop body of `_try_direct_with_backoff` (service.py lines 224-261).
Every 401 forces a token re-acquisition (`force_refresh=True`) and retries
with the new token (aborting only if the refreshed token is falsy); a
transient status behaves as on the SDK path; any other `raise_for_status`
failure is swallowed by `except Exception: pass` and the loop retries; a
successful status returns the response. -/
def try_direct_go (env : FetchEnv) :
    Nat → Nat → String → Option Response → FetchSt → PathRes
  | 0, _, _, last, st => PathRes.resp last st
  | fuel + 1, attempt, tok, _, st =>
    let p := httpGet env st
    let r := p.1
    let st := p.2
    if r.status = 401 then
      let q := directRefreshStep env st
      match q.1 with
      | none => PathRes.resp (some r) q.2
      | some t =>
        if t = "" then PathRes.resp (some r) q.2
        else try_direct_go env fuel (attempt + 1) t (some r) q.2
    else if isTransientStatus r.status then
      let w := retry_after_seconds r attempt (env.jitter (st.reqs - 1))
      let st := { st with nextAllowed := transient_backoff_update st.nextAllowed st.now w }
      if env.strict then PathRes.limit w st
      else try_direct_go env fuel (attempt + 1) tok (some r)
        { st with now := st.now + w }
    else if 400 ≤ r.status then
      try_direct_go env fuel (attempt + 1) tok (some r) st
    else PathRes.resp (some r) st

/-- `_try_direct_with_backoff(max_attempts)`: obtain a token (cache-first),
abort with `None` if the token is falsy, else run the attempt loop. -/
def try_direct_with_backoff (env : FetchEnv) (st : FetchSt) (maxAttempts : Nat) : PathRes :=
  let q := directInitialTokenStep env st
  match q.1 with
  | none => PathRes.resp none q.2
  | some t =>
    if t = "" then PathRes.resp none q.2
    else try_direct_go env maxAttempts 1 t none q.2

/-- `_maybe_pause_on_low_remaining` (service.py lines 119-153): after a
successful response, if `X-Rate-Limit-Remaining <= 0` and
`X-Rate-Limit-Window > 0`, set `_rc_next_allowed_at = time.time() + window`
and, in lenient mode, sleep the window. -/
def maybe_pause_on_low_remaining (strict : Bool) (r : Response) (st : FetchSt) : FetchSt :=
  match r.rlRemaining, r.rlWindow with
  | some rem, some w =>
    if rem ≤ 0 ∧ 0 < w then
      let st := { st with nextAllowed := st.now + w }
      if strict then st else { st with now := st.now + w }
    else st
  | _, _ => st

/-- Result of `fetch_recording_bytes`: a successful response, an `HTTPError`
raised by `raise_for_status` on the fallback result, the `RuntimeError` raised
when the fallback returns no response, or a `RingCentralRateLimitActive`
propagating out of an attempt loop. -/
inductive FetchRes where
  | success (r : Response) (st : FetchSt)
  | httpError (status : Nat) (st : FetchSt)
  | runtimeError (st : FetchSt)
  | limit (retryAfter : ℚ) (st : FetchSt)

/-- Final state carried by a `FetchRes`. -/
def FetchRes.st : FetchRes → FetchSt
  | FetchRes.success _ st => st
  | FetchRes.httpError _ st => st
  | FetchRes.runtimeError st => st
  | FetchRes.limit _ st => st

/-- The raw-HTTP fallback tail of `fetch_recording_bytes` (lines 265-270):
run the direct loop, raise `RuntimeError` on no response, `raise_for_status`
on an error status, else continue to the courtesy pause. -/
def fetch_fallback (env : FetchEnv) (st : FetchSt) : FetchRes :=
  match try_direct_with_backoff env st 4 with
  | PathRes.limit w st => FetchRes.limit w st
  | PathRes.resp none st => FetchRes.runtimeError st
  | PathRes.resp (some r) st =>
    if 400 ≤ r.status then FetchRes.httpError r.status st
    else FetchRes.success r (maybe_pause_on_low_remaining env.strict r st)

/-- `fetch_recording_bytes` (service.py lines 263-282): try the SDK path with
its own 4-attempt budget; if it returns no response or a status `>= 400`, try
the raw-HTTP fallback with its own 4-attempt budget; a successful response
then passes through the courtesy pause before its bytes are returned. -/
def fetch_recording_bytes (env : FetchEnv) (st0 : FetchSt) : FetchRes :=
  match try_platform_with_backoff env st0 4 with
  | PathRes.limit w st => FetchRes.limit w st
  | PathRes.resp raw st =>
    match raw with
    | some r =>
      if r.status < 400 then
        FetchRes.success r (maybe_pause_on_low_remaining env.strict r st)
      else fetch_fallback env st
    | none => fetch_fallback env st

/-- A JSON value as decoded by `ServiceBusQueueListener._decode_body`
(json.loads), restricted to what the handler inspects. -/
inductive JVal where
  | null
  | bool (b : Bool)
  | num (n : Int)
  | str (s : String)
  | arr (xs : List JVal)
  | obj (fields : List (String × JVal))

/-- Python truthiness of a JSON value: `None`, `False`, `0`, `""`, `[]` and
`{}` are falsy. -/
def jtruthy : JVal → Bool
  | JVal.null => false
  | JVal.bool b => b
  | JVal.num n => n != 0
  | JVal.str s => s != ""
  | JVal.arr xs => !xs.isEmpty
  | JVal.obj fields => !fields.isEmpty

/-- `payload.get(key)`: `none` models Python `None` for a missing key. -/
def pyGet (fields : List (String × JVal)) (key : String) : Option JVal :=
  (fields.find? (fun kv => kv.1 == key)).map (fun kv => kv.2)

/-- Truthiness of a `payload.get` result (`None` is falsy). -/
def otruthy : Option JVal → Bool
  | none => false
  | some v => jtruthy v

/-- Python `a or b` on two `payload.get` results: the first operand if it is
truthy, else the second. -/
def pyOr (a b : Option JVal) : Option JVal :=
  if otruthy a then a else b

/-- Python `str(...)` on the JSON values a `callId` can carry (`repr` of
composite values elided: no claim depends on it). -/
def pyStr : JVal → String
  | JVal.null => "None"
  | JVal.bool b => cond b "True" "False"
  | JVal.num n => toString n
  | JVal.str s => s
  | JVal.arr _ => "[...]"
  | JVal.obj _ => "{...}"

/-- `AudioProcessingMessage` (servicebus/models.py lines 23-32). -/
structure AudioProcessingMessage where
  call_id : String
  audio_url : Option JVal
  timestamp : Option JVal
  ringcentral_data : List (String × JVal)
  priority : Option JVal
  raw : List (String × JVal)

/-- `AudioProcessingMessage.from_payload` (models.py lines 34-52):
`callId or call_id` must be truthy or a `ValueError` is raised; `audioUrl or
recordingUrl` picks the audio URL; `ringcentralData or ringcentral_data`
must be a dict to be kept. -/
def from_payload (p : List (String × JVal)) : Except String AudioProcessingMessage :=
  let call_id := pyOr (pyGet p "callId") (pyGet p "call_id")
  if otruthy call_id then
    let rd := pyOr (pyGet p "ringcentralData") (pyGet p "ringcentral_data")
    Except.ok
      { call_id := pyStr ((call_id.getD JVal.null))
        audio_url := pyOr (pyGet p "audioUrl") (pyGet p "recordingUrl")
        timestamp := pyGet p "timestamp"
        ringcentral_data :=
          match rd with
          | some (JVal.obj fields) => fields
          | _ => []
        priority := pyGet p "priority"
        raw := p }
  else Except.error "AudioProcessingMessage payload missing callId"

/-- The two failure classes caught around `process_transcription_job` in
`handle_audio_processing_message` (worker.py lines 52-63). -/
inductive ProcErr where
  | transcriptionJobError (msg : String)
  | unexpected (msg : String)
deriving DecidableEq

/-- What the audio-processing handler did with a message. -/
inductive HandlerOutcome where
  | skippedNonDict
  | droppedMalformed
  | processedOk
  | processingFailed (e : ProcErr)
deriving DecidableEq

/-- Whether `process_transcription_job` was invoked for this outcome. -/
def HandlerOutcome.jobInvoked : HandlerOutcome → Bool
  | HandlerOutcome.skippedNonDict => false
  | HandlerOutcome.droppedMalformed => false
  | HandlerOutcome.processedOk => true
  | HandlerOutcome.processingFailed _ => true

/-- An exception escaping a handler (the listener's `except Exception` class). -/
inductive PyExc where
  | exc (msg : String)
deriving DecidableEq

/-- `handle_audio_processing_message` (worker.py lines 19-63) applied to the
decoded message body, with `process` scripting
`process_transcription_job(message.to_payload())`.  A non-dict payload is
skipped with a warning; a `ValueError` from `from_payload` is caught and the
message dropped; both `TranscriptionJobError` and any other exception from
processing are caught and logged.  Every path returns normally, so the result
is always `Except.ok`: the `Except` layer records that the listener sees no
exception from this handler. -/
def handle_audio_processing_message (body : JVal)
    (process : List (String × JVal) → Except ProcErr Unit) :
    Except PyExc HandlerOutcome :=
  match body with
  | JVal.obj fields =>
    match from_payload fields with
    | Except.error _ => Except.ok HandlerOutcome.droppedMalformed
    | Except.ok m =>
      match process m.raw with
      | Except.ok _ => Except.ok HandlerOutcome.processedOk
      | Except.error e => Except.ok (HandlerOutcome.processingFailed e)
  | _ => Except.ok HandlerOutcome.skippedNonDict

/-- Terminal disposition of one received message. -/
inductive Disposition where
  | complete
  | abandon
deriving DecidableEq

/-- The per-message dispatch of `ServiceBusQueueListener._receive_once`
(listener.py lines 98-110): `await self._handler(envelope)`; on an exception
the message is abandoned, otherwise it is completed. -/
def receiveDispatch (handlerRun : Except PyExc HandlerOutcome) : Disposition :=
  match handlerRun with
  | Except.error _ => Disposition.abandon
  | Except.ok _ => Disposition.complete

/-- An event observable on the `ServiceBusManager` admission counter
(service_bus.py): `dispatch i` is the entry of `_process_message_wrapper` for
unit of work `i` (`with self.task_lock: self.active_tasks += 1`), `finish i`
is its `finally` block (`with self.task_lock: self.active_tasks -= 1`),
executed exactly once whether the body succeeded or raised. -/
inductive AdmEvent where
  | dispatch (i : Nat)
  | finish (i : Nat)
deriving DecidableEq

/-- State of the admission counter: the units of work currently running, the
units already finished, and the `active_tasks` integer as the code maintains
it. -/
structure AdmSt where
  running : Finset Nat
  done : Finset Nat
  active : Int
deriving DecidableEq

/-- The idle initial state: no work dispatched, `active_tasks = 0`
(`ServiceBusManager.__init__`, line 56). -/
def admInit : AdmSt := ⟨∅, ∅, 0⟩

/-- One interleaving step of `_process_message_wrapper`: a fresh unit of work
may be dispatched (incrementing `active_tasks` under the task lock), and a
running unit may finish (its `finally` block decrementing `active_tasks`
exactly once).  Each unit is dispatched at most once and can only finish
after it was dispatched — the wrapper's increment precedes its own
`finally`. -/
inductive AdmStep : AdmSt → AdmEvent → AdmSt → Prop
  | dispatch (i : Nat) (s : AdmSt) :
      i ∉ s.running → i ∉ s.done →
      AdmStep s (AdmEvent.dispatch i) ⟨insert i s.running, s.done, s.active + 1⟩
  | finish (i : Nat) (s : AdmSt) :
      i ∈ s.running →
      AdmStep s (AdmEvent.finish i) ⟨s.running.erase i, insert i s.done, s.active - 1⟩

/-- The states reachable from idle by any interleaving of dispatches and
completions. -/
inductive AdmReachable : AdmSt → Prop
  | init : AdmReachable admInit
  | step {s : AdmSt} {e : AdmEvent} {s' : AdmSt} :
      AdmReachable s → AdmStep s e s' → AdmReachable s'

/-- Modelled from the spec: the LockRenewalTask of §4.2 has no implementation
under the source tree (only the design document describes it).  One tick of
the renewal loop: between ticks the task cooperatively checks its
cancellation token (`cancelAt` is the instant cancellation fires); a tick at
time `t = time + interval` performs a renew-lock call only if cancellation
has not fired, the hard timeout has not elapsed, and no earlier renewal
failed (`renewOk` scripts the backend's renew-lock results; a failed renewal
logs and stops the task). -/
structure RenewSt where
  time : ℚ
  cancelled : Bool
  stopped : Bool
  calls : List ℚ
deriving DecidableEq

/-- Modelled from the spec: one tick of the lock-renewal loop (§4.2). -/
def renewTick (interval hardTimeout cancelAt : ℚ) (renewOk : Nat → Bool)
    (i : Nat) (st : RenewSt) : RenewSt :=
  if st.cancelled || st.stopped then st
  else
    let t := st.time + interval
    if cancelAt ≤ t then { st with time := t, cancelled := true }
    else if hardTimeout < t then { st with time := t, stopped := true }
    else
      let st := { st with time := t, calls := st.calls ++ [t] }
      if renewOk i then st else { st with stopped := true }

/-- Modelled from the spec: run the lock-renewal loop for `fuel` ticks from a
task started at time 0.  The run is a total function: cancellation and
renewal failure end the loop by setting flags, and no exception escapes to
the caller. -/
def renewRun (interval hardTimeout cancelAt : ℚ) (renewOk : Nat → Bool) :
    Nat → RenewSt
  | 0 => ⟨0, false, false, []⟩
  | n + 1 =>
    renewTick interval hardTimeout cancelAt renewOk n
      (renewRun interval hardTimeout cancelAt renewOk n)

theorem applyGate_nextAllowed (strict : Bool) (st : FetchSt) :
    (applyGate strict st).nextAllowed = st.nextAllowed := rfl

theorem tryPlatformGo_nextAllowed_mono (env : FetchEnv) :
    ∀ (fuel attempt : Nat) (rd : Bool) (last : Option Response) (st : FetchSt),
      st.nextAllowed ≤ (try_platform_go env fuel attempt rd last st).st.nextAllowed := by
  intro fuel
  induction fuel with
  | zero =>
    intro attempt rd last st
    simp [try_platform_go, PathRes.st]
  | succ n ih =>
    intro attempt rd last st
    simp only [try_platform_go, httpGet, applyGate]
    split_ifs with h1 h2 h3 h4
    · exact ih _ _ _ _
    · simp [PathRes.st]
    · simp only [PathRes.st]
      exact le_max_left _ _
    · exact le_trans (le_max_left _ _) (ih _ _ _ _)
    · simp [PathRes.st]

theorem directRefreshStep_nextAllowed (env : FetchEnv) (st : FetchSt) :
    (directRefreshStep env st).2.nextAllowed = st.nextAllowed := rfl

theorem directInitialTokenStep_nextAllowed (env : FetchEnv) (st : FetchSt) :
    (directInitialTokenStep env st).2.nextAllowed = st.nextAllowed := rfl

theorem tryDirectGo_nextAllowed_mono (env : FetchEnv) :
    ∀ (fuel attempt : Nat) (tok : String) (last : Option Response) (st : FetchSt),
      st.nextAllowed ≤ (try_direct_go env fuel attempt tok last st).st.nextAllowed := by
  intro fuel
  induction fuel with
  | zero =>
    intro attempt tok last st
    simp [try_direct_go, PathRes.st]
  | succ n ih =>
    intro attempt tok last st
    simp only [try_direct_go, httpGet, applyGate]
    repeat' split
    · exact le_of_eq (directRefreshStep_nextAllowed env _).symm
    · exact le_of_eq (directRefreshStep_nextAllowed env _).symm
    · exact le_trans (le_of_eq (directRefreshStep_nextAllowed env _).symm) (ih _ _ _ _)
    · exact le_max_left _ _
    · exact le_trans (le_max_left _ _) (ih _ _ _ _)
    · exact ih _ _ _ _
    · simp [PathRes.st]

theorem directRefreshStep_reqs (env : FetchEnv) (st : FetchSt) :
    (directRefreshStep env st).2.reqs = st.reqs := rfl

theorem directInitialTokenStep_reqs (env : FetchEnv) (st : FetchSt) :
    (directInitialTokenStep env st).2.reqs = st.reqs := rfl

theorem directRefreshStep_acqs_le (env : FetchEnv) (st : FetchSt) :
    (directRefreshStep env st).2.acqs ≤ st.acqs + 1 := by
  show st.acqs + (if (get_or_refresh_direct_token true st.cache st.now
      (env.acquire st.acqs)).2.2 then 1 else 0) ≤ st.acqs + 1
  split <;> omega

theorem tryPlatformGo_reqs_le (env : FetchEnv) :
    ∀ (fuel attempt : Nat) (rd : Bool) (last : Option Response) (st : FetchSt),
      (try_platform_go env fuel attempt rd last st).st.reqs ≤ st.reqs + fuel := by
  intro fuel
  induction fuel with
  | zero =>
    intro attempt rd last st
    simp [try_platform_go, PathRes.st]
  | succ n ih =>
    intro attempt rd last st
    simp only [try_platform_go, httpGet, applyGate]
    split_ifs with h1 h2 h3 h4
    · exact le_trans (ih _ _ _ _) (by simp; omega)
    · simp [PathRes.st] <;> omega
    · simp [PathRes.st] <;> omega
    · exact le_trans (ih _ _ _ _) (by simp; omega)
    · simp [PathRes.st] <;> omega

theorem tryDirectGo_reqs_le (env : FetchEnv) :
    ∀ (fuel attempt : Nat) (tok : String) (last : Option Response) (st : FetchSt),
      (try_direct_go env fuel attempt tok last st).st.reqs ≤ st.reqs + fuel := by
  intro fuel
  induction fuel with
  | zero =>
    intro attempt tok last st
    simp [try_direct_go, PathRes.st]
  | succ n ih =>
    intro attempt tok last st
    simp only [try_direct_go, httpGet, applyGate]
    repeat' split
    · simp [PathRes.st, directRefreshStep_reqs] <;> omega
    · simp [PathRes.st, directRefreshStep_reqs] <;> omega
    · exact le_trans (ih _ _ _ _) (by simp [directRefreshStep_reqs]; omega)
    · simp [PathRes.st] <;> omega
    · exact le_trans (ih _ _ _ _) (by simp; omega)
    · exact le_trans (ih _ _ _ _) (by simp; omega)
    · simp [PathRes.st] <;> omega

theorem tryDirectGo_acqs_le (env : FetchEnv) :
    ∀ (fuel attempt : Nat) (tok : String) (last : Option Response) (st : FetchSt),
      (try_direct_go env fuel attempt tok last st).st.acqs ≤ st.acqs + fuel := by
  intro fuel
  induction fuel with
  | zero =>
    intro attempt tok last st
    simp [try_direct_go, PathRes.st]
  | succ n ih =>
    intro attempt tok last st
    simp only [try_direct_go, httpGet, applyGate]
    repeat' split
    · exact le_trans (directRefreshStep_acqs_le env _) (by simp <;> omega)
    · exact le_trans (directRefreshStep_acqs_le env _) (by simp <;> omega)
    · exact le_trans (ih _ _ _ _)
        (by exact le_trans (Nat.add_le_add_right (directRefreshStep_acqs_le env _) n)
              (by simp <;> omega))
    · simp [PathRes.st] <;> omega
    · exact le_trans (ih _ _ _ _) (by simp <;> omega)
    · exact le_trans (ih _ _ _ _) (by simp <;> omega)
    · simp [PathRes.st] <;> omega

theorem tryPlatformGo_relogins_done (env : FetchEnv) :
    ∀ (fuel attempt : Nat) (last : Option Response) (st : FetchSt),
      (try_platform_go env fuel attempt true last st).st.relogins = st.relogins := by
  intro fuel
  induction fuel with
  | zero =>
    intro attempt last st
    simp [try_platform_go, PathRes.st]
  | succ n ih =>
    intro attempt last st
    simp only [try_platform_go, httpGet, applyGate]
    split_ifs with h1 h2 h3 h4
    · exact (h1.2 trivial).elim
    · exact (h1.2 trivial).elim
    · simp [PathRes.st]
    · exact ih _ _ _
    · simp [PathRes.st]

theorem tryPlatformGo_relogins_le (env : FetchEnv) :
    ∀ (fuel attempt : Nat) (rd : Bool) (last : Option Response) (st : FetchSt),
      (try_platform_go env fuel attempt rd last st).st.relogins ≤ st.relogins + 1 := by
  intro fuel
  induction fuel with
  | zero =>
    intro attempt rd last st
    simp [try_platform_go, PathRes.st] <;> omega
  | succ n ih =>
    intro attempt rd last st
    simp only [try_platform_go, httpGet, applyGate]
    split_ifs with h1 h2 h3 h4
    · exact le_of_eq (tryPlatformGo_relogins_done env n _ _ _)
    · simp [PathRes.st] <;> omega
    · simp [PathRes.st] <;> omega
    · exact ih _ _ _ _
    · simp [PathRes.st] <;> omega

theorem maybe_pause_reqs (strict : Bool) (r : Response) (st : FetchSt) :
    (maybe_pause_on_low_remaining strict r st).reqs = st.reqs := by
  unfold maybe_pause_on_low_remaining
  repeat' split
  all_goals rfl

theorem tryPlatformWithBackoff_reqs_le (env : FetchEnv) (st : FetchSt) :
    (try_platform_with_backoff env st 4).st.reqs ≤ st.reqs + 4 :=
  tryPlatformGo_reqs_le env 4 1 false none st

theorem tryDirectWithBackoff_reqs_le (env : FetchEnv) (st : FetchSt) :
    (try_direct_with_backoff env st 4).st.reqs ≤ st.reqs + 4 := by
  simp only [try_direct_with_backoff]
  repeat' split
  all_goals
    first
      | (simp only [PathRes.st, directInitialTokenStep_reqs]; omega)
      | exact tryDirectGo_reqs_le env 4 1 _ _ _

theorem fetch_fallback_reqs_le (env : FetchEnv) (st : FetchSt) :
    (fetch_fallback env st).st.reqs ≤ st.reqs + 4 := by
  have h := tryDirectWithBackoff_reqs_le env st
  cases htd : try_direct_with_backoff env st 4 with
  | resp r st' =>
    rw [htd] at h
    simp only [PathRes.st] at h
    cases r with
    | none => simpa [fetch_fallback, htd, FetchRes.st] using h
    | some rr =>
      simp only [fetch_fallback, htd]
      split_ifs
      · simpa [FetchRes.st] using h
      · simpa [FetchRes.st, maybe_pause_reqs] using h
  | limit w st' =>
    rw [htd] at h
    simp only [PathRes.st] at h
    simpa [fetch_fallback, htd, FetchRes.st] using h

theorem fetch_recording_bytes_reqs_le (env : FetchEnv) (st0 : FetchSt) :
    (fetch_recording_bytes env st0).st.reqs ≤ st0.reqs + 8 := by
  have hp := tryPlatformWithBackoff_reqs_le env st0
  cases hpp : try_platform_with_backoff env st0 4 with
  | limit w st =>
    rw [hpp] at hp
    simp only [PathRes.st] at hp
    simp only [fetch_recording_bytes, hpp, FetchRes.st]
    omega
  | resp raw st =>
    rw [hpp] at hp
    simp only [PathRes.st] at hp
    cases raw with
    | some r =>
      simp only [fetch_recording_bytes, hpp]
      split_ifs
      · simp only [FetchRes.st, maybe_pause_reqs]
        omega
      · exact le_trans (fetch_fallback_reqs_le env st) (by omega)
    | none =>
      simp only [fetch_recording_bytes, hpp]
      exact le_trans (fetch_fallback_reqs_le env st) (by omega)

/-- C1: every transient backoff of `b` seconds computed at time `now`, on the
SDK path and on the raw-HTTP fallback path alike, updates the shared throttle
clock to `max(current, now + b)` — so after the update `next_allowed_at` is at
least `now + b` and at least its previous value — and neither attempt loop
ever decreases `next_allowed_at`. -/
theorem c1_shared_backoff_coordination :
    (∀ cur now b : ℚ,
        transient_backoff_update cur now b = max cur (now + b) ∧
        now + b ≤ transient_backoff_update cur now b ∧
        cur ≤ transient_backoff_update cur now b) ∧
    (∀ (env : FetchEnv) (fuel attempt : Nat) (rd : Bool) (last : Option Response)
        (st : FetchSt),
        st.nextAllowed ≤ (try_platform_go env fuel attempt rd last st).st.nextAllowed) ∧
    (∀ (env : FetchEnv) (fuel attempt : Nat) (tok : String) (last : Option Response)
        (st : FetchSt),
        st.nextAllowed ≤ (try_direct_go env fuel attempt tok last st).st.nextAllowed) :=
  ⟨fun _ now b => ⟨rfl, le_max_right _ _, le_max_left _ _⟩,
   fun env fuel attempt rd last st => tryPlatformGo_nextAllowed_mono env fuel attempt rd last st,
   fun env fuel attempt tok last st => tryDirectGo_nextAllowed_mono env fuel attempt tok last st⟩

/-- The status carried by an `HTTPError` result, if any. -/
def FetchRes.errStatus : FetchRes → Option Nat
  | FetchRes.httpError s _ => some s
  | _ => none

/-- C2: the claim says that in strict mode a pre-request gate hit raises the
rate-limit-active signal to the caller and performs no HTTP request.  In the
code the raise sits inside the gate's own `try: ... except Exception: return`,
so with `next_allowed_at = 10` and `now = 0` the body does raise
`RingCentralRateLimitActive(10)`, but the gate swallows it and returns having
slept 0 seconds; the attempt then performs its HTTP request immediately
(request counter 0 → 1 at unchanged `now = 0`).  Lenient mode behaves as
claimed: the gate sleeps the remaining 10 seconds. -/
theorem c2_strict_gate_swallows_signal :
    gate_try_body true 10 0 = GateOutcome.raised 10 ∧
    maybe_wait_before_request true 10 0 = 0 ∧
    applyGate true ⟨0, 10, ⟨none, none⟩, 0, 0, 0⟩ = ⟨0, 10, ⟨none, none⟩, 0, 0, 0⟩ ∧
    (httpGet ⟨true, true, fun _ => ⟨200, none, none, none⟩, fun _ => 0, fun _ => ("t", none)⟩
        ⟨0, 10, ⟨none, none⟩, 0, 0, 0⟩).2.reqs = 1 ∧
    maybe_wait_before_request false 10 0 = 10 := by
  refine ⟨?_, ?_, ?_, ?_, ?_⟩
  · norm_num [gate_try_body]
  · norm_num [maybe_wait_before_request, gate_try_body]
  · norm_num [applyGate, maybe_wait_before_request, gate_try_body]
  · norm_num [httpGet, applyGate, maybe_wait_before_request, gate_try_body]
  · norm_num [maybe_wait_before_request, gate_try_body]

/-- C4 counterexample: with the strict toggle off and every request answering
503 (no headers, zero jitter), one logical fetch performs 4 SDK-path attempts
and then 4 more fallback-path attempts — 8 HTTP attempts in total, not at most
4 as claimed — and raises the last observed error (`HTTPError` with status
503). -/
theorem c4_counterexample_eight_attempts :
    (fetch_recording_bytes
        ⟨false, true, fun _ => ⟨503, none, none, none⟩, fun _ => 0, fun _ => ("tok", none)⟩
        ⟨0, 0, ⟨none, none⟩, 0, 0, 0⟩).st.reqs = 8 ∧
    (fetch_recording_bytes
        ⟨false, true, fun _ => ⟨503, none, none, none⟩, fun _ => 0, fun _ => ("tok", none)⟩
        ⟨0, 0, ⟨none, none⟩, 0, 0, 0⟩).errStatus = some 503 ∧
    ¬ (8 : Nat) ≤ 4 := by
  refine ⟨by decide, by decide, by decide⟩

/-- C4 amended: each path has its own budget of at most 4 HTTP attempts — at
most 4 on the SDK path, at most 4 on the raw-HTTP fallback path, hence at most
8 per logical fetch (not 4 in total as claimed). -/
theorem c4_amended_per_path_budget :
    (∀ (env : FetchEnv) (st : FetchSt),
        (try_platform_with_backoff env st 4).st.reqs ≤ st.reqs + 4) ∧
    (∀ (env : FetchEnv) (st : FetchSt),
        (try_direct_with_backoff env st 4).st.reqs ≤ st.reqs + 4) ∧
    (∀ (env : FetchEnv) (st0 : FetchSt),
        (fetch_recording_bytes env st0).st.reqs ≤ st0.reqs + 8) :=
  ⟨tryPlatformWithBackoff_reqs_le, tryDirectWithBackoff_reqs_le, fetch_recording_bytes_reqs_le⟩

/-- C5 counterexample: on the raw-HTTP fallback path, starting from a cached
token and four consecutive 401 responses, the loop performs 4 HTTP attempts
and 4 forced token re-acquisitions — not "exactly one re-acquisition followed
by one retry, then terminal failure" as claimed. -/
theorem c5_counterexample_four_refreshes :
    (try_direct_with_backoff
        ⟨false, true, fun _ => ⟨401, none, none, none⟩, fun _ => 0, fun _ => ("fresh", none)⟩
        ⟨0, 0, ⟨some "tok0", none⟩, 0, 0, 0⟩ 4).st.acqs = 4 ∧
    (try_direct_with_backoff
        ⟨false, true, fun _ => ⟨401, none, none, none⟩, fun _ => 0, fun _ => ("fresh", none)⟩
        ⟨0, 0, ⟨some "tok0", none⟩, 0, 0, 0⟩ 4).st.reqs = 4 ∧
    ¬ (4 : Nat) = 1 := by
  refine ⟨by decide, by decide, by decide⟩

/-- C5 amended: on the SDK path a 401 triggers at most one re-login (and none
once a re-login has been done — a second 401 ends the SDK path); on the
raw-HTTP fallback path every 401 within the attempt budget triggers a forced
re-acquisition and retry, so re-acquisitions are bounded only by the number of
loop iterations, not by one. -/
theorem c5_amended_auth_retry_policy :
    (∀ (env : FetchEnv) (fuel attempt : Nat) (rd : Bool) (last : Option Response)
        (st : FetchSt),
        (try_platform_go env fuel attempt rd last st).st.relogins ≤ st.relogins + 1) ∧
    (∀ (env : FetchEnv) (fuel attempt : Nat) (last : Option Response) (st : FetchSt),
        (try_platform_go env fuel attempt true last st).st.relogins = st.relogins) ∧
    (∀ (env : FetchEnv) (fuel attempt : Nat) (tok : String) (last : Option Response)
        (st : FetchSt),
        (try_direct_go env fuel attempt tok last st).st.acqs ≤ st.acqs + fuel) :=
  ⟨fun env fuel attempt rd last st => tryPlatformGo_relogins_le env fuel attempt rd last st,
   fun env fuel attempt last st => tryPlatformGo_relogins_done env fuel attempt last st,
   fun env fuel attempt tok last st => tryDirectGo_acqs_le env fuel attempt tok last st⟩

/-- C8 counterexample: with a cached token whose recorded expiry is absent
(`expiry = none`), no recorded expiry satisfies `expires_at > now + 30`, so
the claim's "otherwise" clause demands a fresh acquisition — but the code
returns the cached token with no credential exchange at all. -/
theorem c8_counterexample_no_expiry_reuse :
    get_or_refresh_direct_token false ⟨some "tok", none⟩ 0 ("fresh", some 300) =
      (some "tok", ⟨some "tok", none⟩, false) ∧
    ¬ (get_or_refresh_direct_token false ⟨some "tok", none⟩ 0 ("fresh", some 300)).2.2 = true := by
  refine ⟨by decide, by decide⟩

/-- C8 amended: the cached token is returned without a credential exchange
when it is truthy and its recorded expiry either is absent or satisfies
`expires_at > now + 30`; otherwise (recorded expiry `≤ now + 30`, or no cached
token) a fresh token is acquired and cached with
`expires_at = now + reported_ttl - 60` when a nonzero TTL is reported, and
with no recorded expiry when the TTL is absent. -/
theorem c8_amended_token_lifecycle :
    (∀ (t : String) (e now : ℚ) (acq : String × Option ℚ),
        t ≠ "" → now + 30 < e →
        get_or_refresh_direct_token false ⟨some t, some e⟩ now acq =
          (some t, ⟨some t, some e⟩, false)) ∧
    (∀ (t : String) (now : ℚ) (acq : String × Option ℚ),
        t ≠ "" →
        get_or_refresh_direct_token false ⟨some t, none⟩ now acq =
          (some t, ⟨some t, none⟩, false)) ∧
    (∀ (t f : String) (e now ttl : ℚ),
        e ≤ now + 30 → ttl ≠ 0 →
        get_or_refresh_direct_token false ⟨some t, some e⟩ now (f, some ttl) =
          (some f, ⟨some f, some (now + ttl - 60)⟩, true)) ∧
    (∀ (f : String) (now ttl : ℚ),
        ttl ≠ 0 →
        get_or_refresh_direct_token false ⟨none, none⟩ now (f, some ttl) =
          (some f, ⟨some f, some (now + ttl - 60)⟩, true)) ∧
    (∀ (f : String) (now : ℚ),
        get_or_refresh_direct_token false ⟨none, none⟩ now (f, none) =
          (some f, ⟨some f, none⟩, true)) := by
  refine ⟨?_, ?_, ?_, ?_, ?_⟩
  · intro t e now acq ht he
    have hu : cacheUsable ⟨some t, some e⟩ now = true := by
      simp [cacheUsable, ht, he]
    simp [get_or_refresh_direct_token, hu]
  · intro t now acq ht
    have hu : cacheUsable ⟨some t, none⟩ now = true := by
      simp [cacheUsable, ht]
    simp [get_or_refresh_direct_token, hu]
  · intro t f e now ttl he httl
    have hu : cacheUsable ⟨some t, some e⟩ now = false := by
      simp [cacheUsable, not_lt.mpr he]
    simp [get_or_refresh_direct_token, hu, httl]
  · intro f now ttl httl
    have hu : cacheUsable ⟨none, none⟩ now = false := by
      simp [cacheUsable]
    simp [get_or_refresh_direct_token, hu, httl]
  · intro f now
    have hu : cacheUsable ⟨none, none⟩ now = false := by
      simp [cacheUsable]
    simp [get_or_refresh_direct_token, hu]

/-- Witness for C8 amended: a token with 40s of recorded validity left is
reused without a credential exchange; one with 10s left triggers a fresh
acquisition cached with expiry `now + 300 - 60`. -/
theorem c8_amended_token_lifecycle_witness :
    get_or_refresh_direct_token false ⟨some "tok", some 40⟩ 0 ("f", some 300) =
      (some "tok", ⟨some "tok", some 40⟩, false) ∧
    get_or_refresh_direct_token false ⟨some "tok", some 10⟩ 0 ("f", some 300) =
      (some "f", ⟨some "f", some (0 + 300 - 60)⟩, true) :=
  ⟨c8_amended_token_lifecycle.1 "tok" 40 0 ("f", some 300) (by decide) (by norm_num),
   c8_amended_token_lifecycle.2.2.1 "tok" "f" 10 0 300 (by norm_num) (by norm_num)⟩

/-- C10: a freshly acquired token that comes back with no reported TTL is
cached with no recorded expiry, and a cached token with no recorded expiry is
returned by every subsequent non-forced acquisition — at any time `now`
whatsoever — without a credential exchange. -/
theorem c10_ttl_less_token_never_expires :
    (∀ (now : ℚ) (tok : String),
        get_or_refresh_direct_token false ⟨none, none⟩ now (tok, none) =
          (some tok, ⟨some tok, none⟩, true)) ∧
    (∀ (now : ℚ) (t : String) (acq : String × Option ℚ),
        t ≠ "" →
        get_or_refresh_direct_token false ⟨some t, none⟩ now acq =
          (some t, ⟨some t, none⟩, false)) := by
  constructor
  · intro now tok
    have hu : cacheUsable ⟨none, none⟩ now = false := by
      simp [cacheUsable]
    simp [get_or_refresh_direct_token, hu]
  · intro now t acq ht
    have hu : cacheUsable ⟨some t, none⟩ now = true := by
      simp [cacheUsable, ht]
    simp [get_or_refresh_direct_token, hu]

/-- Witness for C10: a token acquired with no TTL at time 5 records no
expiry; much later (time 1000000) the cached TTL-less token is still returned
with no credential exchange. -/
theorem c10_ttl_less_token_never_expires_witness :
    get_or_refresh_direct_token false ⟨none, none⟩ 5 ("tok", none) =
      (some "tok", ⟨some "tok", none⟩, true) ∧
    get_or_refresh_direct_token false ⟨some "tok", none⟩ 1000000 ("other", some 60) =
      (some "tok", ⟨some "tok", none⟩, false) :=
  ⟨c10_ttl_less_token_never_expires.1 5 "tok",
   c10_ttl_less_token_never_expires.2 1000000 "tok" ("other", some 60) (by decide)⟩

/-- C6: a message whose decoded body is a JSON object with no truthy `callId`
(nor `call_id`), or is not a JSON object at all, never reaches
`process_transcription_job` (the handler outcome is independent of the
processing oracle and carries `jobInvoked = false`), the handler returns
normally, and the listener completes the message — never abandons it. -/
theorem c6_missing_call_id_completed_without_dispatch :
    (∀ (fields : List (String × JVal))
        (process : List (String × JVal) → Except ProcErr Unit),
        otruthy (pyOr (pyGet fields "callId") (pyGet fields "call_id")) = false →
        handle_audio_processing_message (JVal.obj fields) process =
          Except.ok HandlerOutcome.droppedMalformed ∧
        receiveDispatch (handle_audio_processing_message (JVal.obj fields) process) =
          Disposition.complete) ∧
    (∀ (body : JVal) (process : List (String × JVal) → Except ProcErr Unit),
        (∀ fields, body ≠ JVal.obj fields) →
        handle_audio_processing_message body process =
          Except.ok HandlerOutcome.skippedNonDict ∧
        receiveDispatch (handle_audio_processing_message body process) =
          Disposition.complete) ∧
    HandlerOutcome.droppedMalformed.jobInvoked = false ∧
    HandlerOutcome.skippedNonDict.jobInvoked = false := by
  refine ⟨?_, ?_, rfl, rfl⟩
  · intro fields process h
    have hfp : from_payload fields =
        Except.error "AudioProcessingMessage payload missing callId" := by
      simp [from_payload, h]
    constructor
    · simp [handle_audio_processing_message, hfp]
    · simp [receiveDispatch, handle_audio_processing_message, hfp]
  · intro body process h
    cases body with
    | obj fields => exact absurd rfl (h fields)
    | null => exact ⟨rfl, rfl⟩
    | bool b => exact ⟨rfl, rfl⟩
    | num n => exact ⟨rfl, rfl⟩
    | str s => exact ⟨rfl, rfl⟩
    | arr xs => exact ⟨rfl, rfl⟩

/-- Witness for C6: a body with only `audioUrl` (no `callId`) is dropped
without invoking the processor and completed, and a plain-string body is
skipped and completed. -/
theorem c6_missing_call_id_witness :
    (handle_audio_processing_message (JVal.obj [("audioUrl", JVal.str "u")])
        (fun _ => Except.ok ()) =
      Except.ok HandlerOutcome.droppedMalformed ∧
     receiveDispatch (handle_audio_processing_message
        (JVal.obj [("audioUrl", JVal.str "u")]) (fun _ => Except.ok ())) =
      Disposition.complete) ∧
    (handle_audio_processing_message (JVal.str "not-a-dict")
        (fun _ => Except.ok ()) =
      Except.ok HandlerOutcome.skippedNonDict ∧
     receiveDispatch (handle_audio_processing_message (JVal.str "not-a-dict")
        (fun _ => Except.ok ())) =
      Disposition.complete) :=
  ⟨c6_missing_call_id_completed_without_dispatch.1 [("audioUrl", JVal.str "u")]
      (fun _ => Except.ok ()) rfl,
   c6_missing_call_id_completed_without_dispatch.2.1 (JVal.str "not-a-dict")
      (fun _ => Except.ok ()) (fun _ h => JVal.noConfusion h)⟩

/-- C3 counterexample: a valid message (`callId = "c1"`) whose processing
fails with a transcription error does not surface the failure: the handler
catches it and returns normally, so the listener completes the message
instead of abandoning it. -/
theorem c3_counterexample_failure_completed :
    receiveDispatch
        (handle_audio_processing_message (JVal.obj [("callId", JVal.str "c1")])
          (fun _ => Except.error (ProcErr.transcriptionJobError "retries exhausted"))) =
      Disposition.complete ∧
    Disposition.complete ≠ Disposition.abandon := by
  refine ⟨rfl, by decide⟩

/-- C3 amended: the audio-processing handler catches every processing failure
(`TranscriptionJobError` and any other exception) and returns normally, so
the listener completes the message even when processing failed; the listener
abandons a message only when the handler itself raises — which this handler
never does. -/
theorem c3_amended_failures_swallowed :
    (∀ (fields : List (String × JVal))
        (process : List (String × JVal) → Except ProcErr Unit)
        (m : AudioProcessingMessage) (e : ProcErr),
        from_payload fields = Except.ok m →
        process m.raw = Except.error e →
        handle_audio_processing_message (JVal.obj fields) process =
          Except.ok (HandlerOutcome.processingFailed e) ∧
        receiveDispatch (handle_audio_processing_message (JVal.obj fields) process) =
          Disposition.complete) ∧
    (∀ (ex : PyExc), receiveDispatch (Except.error ex) = Disposition.abandon) ∧
    (∀ (r : HandlerOutcome), receiveDispatch (Except.ok r) = Disposition.complete) := by
  refine ⟨?_, fun ex => rfl, fun r => rfl⟩
  intro fields process m e hfp hpr
  constructor
  · simp [handle_audio_processing_message, hfp, hpr]
  · simp [receiveDispatch, handle_audio_processing_message, hfp, hpr]

/-- Witness for C3 amended: with `callId = "c1"` and a processor that fails,
the handler reports the swallowed failure and the message is completed. -/
theorem c3_amended_failures_swallowed_witness :
    handle_audio_processing_message (JVal.obj [("callId", JVal.str "c1")])
        (fun _ => Except.error (ProcErr.unexpected "boom")) =
      Except.ok (HandlerOutcome.processingFailed (ProcErr.unexpected "boom")) ∧
    receiveDispatch
        (handle_audio_processing_message (JVal.obj [("callId", JVal.str "c1")])
          (fun _ => Except.error (ProcErr.unexpected "boom"))) =
      Disposition.complete :=
  c3_amended_failures_swallowed.1 [("callId", JVal.str "c1")]
    (fun _ => Except.error (ProcErr.unexpected "boom"))
    ⟨"c1", none, none, [], none, [("callId", JVal.str "c1")]⟩
    (ProcErr.unexpected "boom") rfl rfl

theorem admReachable_active_eq_card {s : AdmSt} (h : AdmReachable s) :
    s.active = s.running.card := by
  induction h with
  | init => simp [admInit]
  | step hr hstep ih =>
    cases hstep with
    | dispatch i s0 hi hd =>
      simp only [Finset.card_insert_of_not_mem hi]
      push_cast
      omega
    | finish i s0 hi =>
      simp only [Finset.card_erase_of_mem hi]
      rw [ih]
      have hpos : 0 < Finset.card _ := Finset.card_pos.mpr ⟨i, hi⟩
      push_cast [Nat.cast_sub hpos]
      ring

/-- C7: in every state reachable by any interleaving of dispatches and
completions of `_process_message_wrapper` (increment under the task lock on
entry, decrement exactly once in the `finally` block), `active_tasks` equals
the number of units currently running, is never negative, and returns to 0
once no dispatched unit is still running. -/
theorem c7_active_tasks_never_negative :
    ∀ (s : AdmSt), AdmReachable s →
      0 ≤ s.active ∧ s.active = s.running.card ∧
      (s.running = ∅ → s.active = 0) := by
  intro s h
  have hcard := admReachable_active_eq_card h
  refine ⟨?_, hcard, ?_⟩
  · rw [hcard]
    exact Int.ofNat_nonneg _
  · intro hempty
    rw [hcard, hempty]
    simp

/-- Witness for C7: the state after dispatching unit 0 and letting it finish
is reachable and idle, with `active_tasks = 0`. -/
theorem c7_active_tasks_never_negative_witness :
    0 ≤ (AdmSt.mk ∅ {0} 0).active ∧
    (AdmSt.mk ∅ {0} 0).active = (AdmSt.mk ∅ {0} 0).running.card ∧
    ((AdmSt.mk ∅ {0} 0).running = ∅ → (AdmSt.mk ∅ {0} 0).active = 0) := by
  have h0 : AdmReachable admInit := AdmReachable.init
  have h1 : AdmReachable (AdmSt.mk {0} ∅ 1) := by
    have hstep := AdmStep.dispatch 0 admInit (by simp [admInit]) (by simp [admInit])
    exact AdmReachable.step h0 (by simpa [admInit] using hstep)
  have h2 : AdmReachable (AdmSt.mk ∅ {0} 0) := by
    have hstep := AdmStep.finish 0 (AdmSt.mk {0} ∅ 1) (by simp)
    have he : ({0} : Finset ℕ).erase 0 = (∅ : Finset ℕ) := by simp
    have hi : (insert 0 (∅ : Finset ℕ)) = ({0} : Finset ℕ) := rfl
    exact AdmReachable.step h1 (by simpa [he, hi] using hstep)
  exact c7_active_tasks_never_negative _ h2

/-- C9: once the cancellation instant has been reached (checked cooperatively
between ticks), the lock-renewal task performs no further renew-lock call:
every recorded call happens strictly before `cancelAt`, and never beyond the
hard timeout; the run itself is a total function, so cancellation surfaces no
exception to the caller. -/
theorem c9_no_renewal_after_cancellation :
    ∀ (interval hardTimeout cancelAt : ℚ) (renewOk : Nat → Bool) (fuel : Nat) (t : ℚ),
      t ∈ (renewRun interval hardTimeout cancelAt renewOk fuel).calls →
      t < cancelAt ∧ t ≤ hardTimeout := by
  intro interval hardTimeout cancelAt renewOk fuel
  induction fuel with
  | zero =>
    intro t ht
    simp [renewRun] at ht
  | succ n ih =>
    intro t ht
    simp only [renewRun, renewTick] at ht
    split_ifs at ht with h1 h2 h3 h4
    · exact ih t ht
    · exact ih t ht
    · exact ih t ht
    · simp only [List.mem_append, List.mem_singleton] at ht
      rcases ht with ht | ht
      · exact ih t ht
      · subst ht
        exact ⟨lt_of_not_ge h2, le_of_not_gt h3⟩
    · simp only [List.mem_append, List.mem_singleton] at ht
      rcases ht with ht | ht
      · exact ih t ht
      · subst ht
        exact ⟨lt_of_not_ge h2, le_of_not_gt h3⟩

/-- Witness for C9: with a 10s interval, 600s hard timeout and cancellation
firing at t = 25, three ticks produce renew calls at 10 and 20 only; the call
at t = 10 indeed precedes both bounds. -/
theorem c9_no_renewal_after_cancellation_witness :
    (10 : ℚ) < 25 ∧ (10 : ℚ) ≤ 600 :=
  c9_no_renewal_after_cancellation 10 600 25 (fun _ => true) 3 10
    (by norm_num [renewRun, renewTick])
